import Mathlib

/-!
Verification of the MCS repository's general matrix-multiply pipeline
(`matmul_dgemm_general.cpp`, source file part_001) and its sibling
programs (SVD demo, linear/quadratic least-squares fitting).

Shallow embedding conventions:
* `double` values are modelled as `ℚ` (exact arithmetic; the spec's
  "within floating-point rounding tolerance" becomes exact equality).
* A text input stream is a list of whitespace-separated tokens; a token
  either parses as an integer, as a non-integer number, or is unparsable.
* `std::vector<double>` buffers are `List ℚ`; out-of-range reads use
  `List.getD` with default 0 (the C++ code never reads out of range on
  the paths proved here).
* Exceptions (`std::runtime_error`) are modelled with `Except` /
  explicit error values; opening the output file and writing happen only
  after the external call, so "no output file on failure" is modelled by
  the run producing `.error` instead of an `.ok` output.
-/

namespace MCS

/-- A whitespace-separated token of the input stream: parsable as an
integer, parsable as a (non-integer) floating-point number, or
unparsable. -/
inductive Tok
  | int (k : ℤ)
  | real (q : ℚ)
  | bad
deriving DecidableEq, Repr

/-- Reading one `int` with `operator>>`: succeeds only on an integer
token; on a missing or non-integer token the stream enters its fail
state, modelled by `none`. -/
def readInt : List Tok → Option (ℤ × List Tok)
  | Tok.int k :: rest => some (k, rest)
  | _ => none

/-- Reading one `double` with `operator>>`: integer and non-integer
numeric tokens parse; a missing or unparsable token fails. -/
def readReal : List Tok → Option (ℚ × List Tok)
  | Tok.int k :: rest => some ((k : ℚ), rest)
  | Tok.real q :: rest => some (q, rest)
  | _ => none

/-- The header read `fin >> m >> n >> l` (part_001 line 97): three
integers in sequence; any failure fails the whole read. -/
def readDims (toks : List Tok) : Option (ℤ × ℤ × ℤ × List Tok) :=
  match readInt toks with
  | none => none
  | some (m, rest₁) =>
    match readInt rest₁ with
    | none => none
    | some (n, rest₂) =>
      match readInt rest₂ with
      | none => none
      | some (l, rest₃) => some (m, n, l, rest₃)

/-- Result of reading a matrix: either all entries in row-major order
plus the remaining stream, or failure at (row `i`, column `j`) after
`consumed` entries were successfully read. -/
inductive ReadOut
  | ok (vals : List ℚ) (rest : List Tok)
  | fail (i j : ℕ) (consumed : ℕ)
deriving DecidableEq, Repr

/-- Entry-reading loop of `read_matrix_row_major` (part_001 lines
41–48).  The C++ nested loops over `i < rows`, `j < cols` visit the
flat entry index `e = i*cols + j` in increasing order, so they are
embedded as one loop over `e` with `i = e / cols`, `j = e % cols`;
`remaining` counts the entries still to read. -/
def readVals (cols : ℕ) : ℕ → ℕ → List Tok → ReadOut
  | _, 0, toks => .ok [] toks
  | e, remaining + 1, toks =>
    match readReal toks with
    | none => .fail (e / cols) (e % cols) 0
    | some (v, rest) =>
      match readVals cols (e + 1) remaining rest with
      | .ok vs rest' => .ok (v :: vs) rest'
      | .fail i j c => .fail i j (c + 1)

/-- Embedding of `read_matrix_row_major(in, rows, cols, name)`
(part_001 lines 39–50), without the name: the caller attaches the
matrix name to the failure, as `main` passes `"A"`/`"B"` down. -/
def read_matrix_row_major (toks : List Tok) (rows cols : ℕ) : ReadOut :=
  readVals cols 0 (rows * cols) toks

/-- Embedding of `to_col_major(rm, rows, cols)` (part_001 lines 53–59):
the loops assign `cm[j*rows+i] = rm[i*cols+j]` for every `i < rows`,
`j < cols`, which determines the buffer of length `rows*cols`
pointwise: position `p` holds `rm[(p % rows)*cols + p / rows]`. -/
def to_col_major (rm : List ℚ) (rows cols : ℕ) : List ℚ :=
  (List.range (rows * cols)).map fun p => rm.getD ((p % rows) * cols + p / rows) 0

/-- Embedding of `to_row_major(cm, rows, cols)` (part_001 lines 62–68):
the loops assign `rm[i*cols+j] = cm[j*rows+i]`, so position `p` of the
result holds `cm[(p % cols)*rows + p / cols]`. -/
def to_row_major (cm : List ℚ) (rows cols : ℕ) : List ℚ :=
  (List.range (rows * cols)).map fun p => cm.getD ((p % cols) * rows + p / cols) 0

/-- Modelled from the spec: the external dense-multiply primitive
(DGEMM, spec §6 collaborator contract; source comment part_001 line 29:
`C = alpha*op(A)*op(B) + beta*C`).  Operands are column-major buffers
with leading dimensions `lda`, `ldb`, `ldc`; `op` is the identity for
flag `'N'` and transposition otherwise; entries of `C` outside the
`M×N` target block are left untouched. -/
def dgemm (transa transb : Char) (M N K : ℕ) (alpha : ℚ) (A : List ℚ) (lda : ℕ)
    (B : List ℚ) (ldb : ℕ) (beta : ℚ) (C : List ℚ) (ldc : ℕ) : List ℚ :=
  (List.range C.length).map fun p =>
    if p % ldc < M ∧ p / ldc < N then
      alpha * ((Finset.range K).sum fun k =>
        (if transa = 'N' then A.getD (k * lda + p % ldc) 0 else A.getD (p % ldc * lda + k) 0) *
        (if transb = 'N' then B.getD (p / ldc * ldb + k) 0 else B.getD (k * ldb + p / ldc) 0)) +
      beta * C.getD p 0
    else C.getD p 0

/-- The compute core of `main` (part_001 lines 106–136): convert both
row-major operands to column-major, invoke `dgemm` with
`trans = 'N', 'N'`, `alpha = 1`, `beta = 0`, `lda = m`, `ldb = n`,
`ldc = m` on a zero-initialized `m×l` buffer, convert the result back
to row-major. -/
def pipelineMultiply (A_rm B_rm : List ℚ) (m n l : ℕ) : List ℚ :=
  to_row_major
    (dgemm 'N' 'N' m l n 1 (to_col_major A_rm m n) m (to_col_major B_rm n l) n 0
      (List.replicate (m * l) 0) m)
    m l

/-- Error taxonomy of the multiply pipeline, mapping the two
`std::runtime_error` throw sites of part_001: "Dimensiones inválidas"
(line 98) and "Error leyendo matriz <name> en (i,j)" (lines 44–45). -/
inductive Err
  | invalidDimension
  | malformedInput (name : String) (i j : ℕ)
deriving DecidableEq, Repr

/-- Record of one invocation of the external `dgemm_` routine
(part_001 lines 127–133): the actual arguments passed, plus — as
instrumentation — the dimensions under which the two operand matrices
were read from the input (`Arows×Acols` for A, `Brows×Bcols` for B). -/
structure DgemmCall where
  transa : Char
  transb : Char
  M : ℕ
  N : ℕ
  K : ℕ
  alpha : ℚ
  Abuf : List ℚ
  lda : ℕ
  Bbuf : List ℚ
  ldb : ℕ
  beta : ℚ
  Cbuf : List ℚ
  ldc : ℕ
  Arows : ℕ
  Acols : ℕ
  Brows : ℕ
  Bcols : ℕ
deriving DecidableEq, Repr

/-- Observable outcome of one pipeline run: the `Except` result (`.ok`
carries the row-major matrix written to the output file with its
dimensions; the output file is only created after `dgemm_` returns,
so an `.error` run writes no output), the list of external calls
performed, and how many matrix entries were read from the stream. -/
structure RunResult where
  result : Except Err (List ℚ × ℕ × ℕ)
  calls : List DgemmCall
  entriesRead : ℕ

/-- Embedding of `main` (part_001 lines 96–141) after the files are
opened: read the `m n l` header (throwing `invalidDimension` when a
header integer is missing, unparsable, or ≤ 0, before any matrix entry
is read), read A as m×n and B as n×l (throwing `malformedInput` with
the matrix name and failing position), then run the multiply core and
write the result. -/
def run (toks : List Tok) : RunResult :=
  match readDims toks with
  | none => ⟨.error .invalidDimension, [], 0⟩
  | some (mz, nz, lz, rest₁) =>
    if mz ≤ 0 ∨ nz ≤ 0 ∨ lz ≤ 0 then ⟨.error .invalidDimension, [], 0⟩
    else
      let m := mz.toNat
      let n := nz.toNat
      let l := lz.toNat
      match read_matrix_row_major rest₁ m n with
      | .fail i j c => ⟨.error (.malformedInput "A" i j), [], c⟩
      | .ok A_rm rest₂ =>
        match read_matrix_row_major rest₂ n l with
        | .fail i j c => ⟨.error (.malformedInput "B" i j), [], m * n + c⟩
        | .ok B_rm _ =>
          ⟨.ok (pipelineMultiply A_rm B_rm m n l, m, l),
           [⟨'N', 'N', m, l, n, 1, to_col_major A_rm m n, m, to_col_major B_rm n l, n, 0,
             List.replicate (m * l) 0, m, m, n, n, l⟩],
           m * n + n * l⟩

/-- The n×n identity matrix in row-major layout (spec-side value used
to state the identity property). -/
def idMatrix (n : ℕ) : List ℚ :=
  (List.range (n * n)).map fun p => if p / n = p % n then 1 else 0

/-- Encoding of a row-major matrix as a token stream of its entries. -/
def encodeMatrix (vals : List ℚ) : List Tok := vals.map Tok.real

/-- Concrete call record produced by the run on input
`1 1 1 / A=[2] / B=[3]` (used by a witness). -/
def exampleCallA : DgemmCall :=
  ⟨'N', 'N', 1, 1, 1, 1, to_col_major [2] 1 1, 1, to_col_major [3] 1 1, 1, 0,
    List.replicate 1 0, 1, 1, 1, 1, 1⟩

/-- Concrete call record produced by the run on input
`2 1 1 / A=[5,7] / B=[4]` (used by a witness). -/
def exampleCallB : DgemmCall :=
  ⟨'N', 'N', 2, 1, 1, 1, to_col_major [5, 7] 2 1, 2, to_col_major [4] 1 1, 1, 0,
    List.replicate 2 0, 2, 2, 1, 1, 1⟩

/-- Classification of how the status-inspecting programs surface the
external routine's integer status.  The constructors mirror the
distinct failure paths present in the sources: `invalidArgument` and
`numericFailure` are the two separate `throw` sites of the fitting
programs; `uniformFailure` is the single undifferentiated
print-and-return-1 path of the SVD program. -/
inductive StatusOutcome
  | success
  | invalidArgument (pos : ℤ)
  | numericFailure (info : ℤ)
  | uniformFailure (info : ℤ)
deriving DecidableEq, Repr

/-- Status handling after `LAPACKE_dgesv` in the linear fitting program
(main-ecnormal-modelo-lineal.cpp lines 119–124): `info < 0` throws
"argumento ilegal en posición <-info>", `info > 0` throws
"matriz singular ... (info=<info>)", otherwise execution continues. -/
def dgesvStatus (info : ℤ) : StatusOutcome :=
  if info < 0 then .invalidArgument (-info)
  else if info > 0 then .numericFailure info
  else .success

/-- Status handling after `LAPACKE_dgels` in the quadratic fitting
program (main-ecnormal-modelo-cuadratico.cpp lines 88–93): same two
distinct throw sites as the linear program ("argumento ilegal en
posicion <-info>" / "fallo numérico (info=<info>)"). -/
def dgelsStatus (info : ℤ) : StatusOutcome :=
  if info < 0 then .invalidArgument (-info)
  else if info > 0 then .numericFailure info
  else .success

/-- Status handling after `LAPACKE_dgesvd` in the SVD program
(part_000 lines 37–40): any `info ≠ 0` prints
"Error en dgesvd, info = <info>" (the raw value, no negation, no
parameter position) and returns exit code 1 — one single failure path
shared by negative and positive statuses. -/
def dgesvdStatus (info : ℤ) : StatusOutcome :=
  if info ≠ 0 then .uniformFailure info else .success

/-- Concatenation of already-formatted chunks (spec-side helper used to
state the emission format). -/
def lineConcat : List String → String
  | [] => ""
  | s :: rest => s ++ lineConcat rest

/-- Single-space-separated join (spec-side shape of one output row). -/
def spaceJoin : List String → String
  | [] => ""
  | [s] => s
  | s :: rest => s ++ " " ++ spaceJoin rest

/-- Embedding of `write_matrix_row_major(out, rm, rows, cols)`
(part_001 lines 70–80).  Numeric rendering of the stream is abstract:
`fmt p q` renders value `q` at precision `p`; the code sets
`std::setprecision(17)` (line 72) before writing any value, so every
value goes through `fmt 17`.  The header integers are written with
`toString`, mirroring `out << rows << " " << cols << "\n"`; the nested
loops append each value, a space when `j+1 < cols`, and a newline after
each row. -/
def write_matrix_row_major (fmt : ℕ → ℚ → String) (rm : List ℚ) (rows cols : ℕ) : String :=
  (toString rows ++ " " ++ toString cols ++ "\n") ++
  (List.range rows).foldl (fun acc i =>
    ((List.range cols).foldl (fun acc2 j =>
      acc2 ++ fmt 17 (rm.getD (i * cols + j) 0) ++ (if j + 1 < cols then " " else "")) acc)
    ++ "\n") ""

/-- The 2×2 input matrix of the SVD program, which is also the
redeclared `A_orig` used for the error check (part_000 lines 10–13 and
100–103): A = [[1, -0.8], [0, 1]]. -/
def svdA : List ℚ := [1, -4/5, 0, 1]

/-- The Sigma matrix built from the singular values (part_000 lines
63–65): zero-initialized 2×2 with `S[0]` at (0,0) and `S[1]` at (1,1). -/
def svdSigma (S : List ℚ) : List ℚ := [S.getD 0 0, 0, 0, S.getD 1 0]

/-- The 2×2 row-major product loops of part_000 (lines 71–79 and
81–89; both products share this shape): entry (i,j) is
`Σ_k X[i*2+k] * Y[k*2+j]`, embedded flat with `i = p / 2`,
`j = p % 2`. -/
def mat2mul (X Y : List ℚ) : List ℚ :=
  (List.range 4).map fun p =>
    ∑ k in Finset.range 2, X.getD (p / 2 * 2 + k) 0 * Y.getD (k * 2 + p % 2) 0

/-- The reconstruction `A_rec = (U * Sigma) * V^T` of part_000
(lines 67–90). -/
def svdARec (U S VT : List ℚ) : List ℚ := mat2mul (mat2mul U (svdSigma S)) VT

/-- The reconstruction-error loop of part_000 (lines 105–109):
`max_err` starts at 0 and is replaced whenever
`|A_rec[p] - A_orig[p]|` exceeds it. -/
def svd_max_err (U S VT : List ℚ) : ℚ :=
  (List.range 4).foldl (fun acc p =>
    if |(svdARec U S VT).getD p 0 - svdA.getD p 0| > acc then
      |(svdARec U S VT).getD p 0 - svdA.getD p 0|
    else acc) 0

/-- Spec-side entry (i,j) of the recomposed product `U·Σ·Vᵀ` with
`Σ = diag(S)`, written as the direct double sum. -/
def recomposedEntry (U S VT : List ℚ) (i j : ℕ) : ℚ :=
  ∑ k in Finset.range 2, ∑ k2 in Finset.range 2,
    U.getD (i * 2 + k) 0 * (if k = k2 then S.getD k 0 else 0) * VT.getD (k2 * 2 + j) 0

/-- Sample abscissae of the linear fitting program
(main-ecnormal-modelo-lineal.cpp line 41). -/
def lineal_x : List ℚ := [1, 2, 3, 4]

/-- Sample ordinates of the linear fitting program (line 42). -/
def lineal_y : List ℚ := [2, 2, 4, 5]

/-- The SSE accumulation loop of the linear fitting program (lines
139–146): `y_hat = a*x[i] + b`, `err = y_hat - y[i]`,
`sse += err*err`, over the `m = 4` samples. -/
def lineal_sse (a b : ℚ) : ℚ :=
  (List.range 4).foldl (fun acc i =>
    acc + (a * lineal_x.getD i 0 + b - lineal_y.getD i 0) *
      (a * lineal_x.getD i 0 + b - lineal_y.getD i 0)) 0

/-- The printed MSE of the linear fitting program (line 148):
`sse / m` where `m = x.size()`. -/
def lineal_mse (a b : ℚ) : ℚ := lineal_sse a b / (lineal_x.length : ℚ)

/-- Sample abscissae of the quadratic fitting program
(main-ecnormal-modelo-cuadratico.cpp line 38). -/
def cuad_x : List ℚ := [0, 1, 2, 3, 4, 5]

/-- Sample ordinates of the quadratic fitting program (line 39). -/
def cuad_y : List ℚ := [6/5, 2, 29/10, 41/10, 29/5, 41/5]

/-- The SSE accumulation loop of the quadratic fitting program (lines
110–122): `y_hat = a*x[i]*x[i] + b*x[i] + c`, `err = y_hat - y[i]`,
`sse += err*err`, over the 6 samples. -/
def cuad_sse (a b c : ℚ) : ℚ :=
  (List.range 6).foldl (fun acc i =>
    acc + (a * cuad_x.getD i 0 * cuad_x.getD i 0 + b * cuad_x.getD i 0 + c - cuad_y.getD i 0) *
      (a * cuad_x.getD i 0 * cuad_x.getD i 0 + b * cuad_x.getD i 0 + c - cuad_y.getD i 0)) 0

/-- The printed MSE of the quadratic fitting program (line 123):
`sse / m` where `m = x.size()`. -/
def cuad_mse (a b c : ℚ) : ℚ := cuad_sse a b c / (cuad_x.length : ℚ)

theorem getD_map_range (f : ℕ → ℚ) {N p : ℕ} (d : ℚ) (h : p < N) :
    ((List.range N).map f).getD p d = f p := by
  rw [List.getD_eq_getElem?_getD, List.getElem?_map, List.getElem?_range h]
  rfl

theorem getD_replicate_zero (n p : ℕ) : (List.replicate n (0 : ℚ)).getD p 0 = 0 := by
  rw [List.getD_eq_getElem?_getD, List.getElem?_replicate]
  split <;> rfl

theorem length_to_col_major (rm : List ℚ) (rows cols : ℕ) :
    (to_col_major rm rows cols).length = rows * cols := by
  simp [to_col_major]

theorem length_to_row_major (cm : List ℚ) (rows cols : ℕ) :
    (to_row_major cm rows cols).length = rows * cols := by
  simp [to_row_major]

theorem to_col_major_getD (rm : List ℚ) {rows cols i j : ℕ}
    (hi : i < rows) (hj : j < cols) :
    (to_col_major rm rows cols).getD (j * rows + i) 0 = rm.getD (i * cols + j) 0 := by
  have hlt : j * rows + i < rows * cols := by
    calc j * rows + i < j * rows + rows := by omega
    _ = (j + 1) * rows := by ring
    _ ≤ cols * rows := Nat.mul_le_mul_right rows hj
    _ = rows * cols := Nat.mul_comm cols rows
  rw [to_col_major, getD_map_range _ _ hlt]
  have hmod : (j * rows + i) % rows = i := by
    rw [Nat.add_comm, Nat.add_mul_mod_self_right, Nat.mod_eq_of_lt hi]
  have hdiv : (j * rows + i) / rows = j := by
    rw [Nat.add_comm, Nat.add_mul_div_right i j (by omega : 0 < rows),
      Nat.div_eq_of_lt hi, Nat.zero_add]
  rw [hmod, hdiv]

theorem to_row_major_getD (cm : List ℚ) {rows cols i j : ℕ}
    (hi : i < rows) (hj : j < cols) :
    (to_row_major cm rows cols).getD (i * cols + j) 0 = cm.getD (j * rows + i) 0 := by
  have hlt : i * cols + j < rows * cols := by
    calc i * cols + j < i * cols + cols := by omega
    _ = (i + 1) * cols := by ring
    _ ≤ rows * cols := Nat.mul_le_mul_right cols hi
  rw [to_row_major, getD_map_range _ _ hlt]
  have hmod : (i * cols + j) % cols = j := by
    rw [Nat.add_comm, Nat.add_mul_mod_self_right, Nat.mod_eq_of_lt hj]
  have hdiv : (i * cols + j) / cols = i := by
    rw [Nat.add_comm, Nat.add_mul_div_right j i (by omega : 0 < cols),
      Nat.div_eq_of_lt hj, Nat.zero_add]
  rw [hmod, hdiv]

/-- C2: for every row-major matrix `M` with `rows > 0` and `cols > 0`
(backing storage of exactly `rows*cols` values), converting to
column-major and back with the layout adapters is the identity,
element-for-element and exactly — the adapters copy values verbatim
without arithmetic. -/
theorem roundtrip_to_col_to_row (M : List ℚ) (rows cols : ℕ)
    (_hr : 0 < rows) (hc : 0 < cols) (hlen : M.length = rows * cols) :
    to_row_major (to_col_major M rows cols) rows cols = M := by
  apply List.ext_getElem
  · rw [length_to_row_major, hlen]
  · intro p hp hpM
    rw [length_to_row_major] at hp
    have key : (to_row_major (to_col_major M rows cols) rows cols).getD p 0 = M.getD p 0 := by
      have hi : p / cols < rows := Nat.div_lt_of_lt_mul (by rw [Nat.mul_comm] at hp; exact hp)
      have hj : p % cols < cols := Nat.mod_lt p hc
      have hsplit : p = p / cols * cols + p % cols := by
        rw [Nat.mul_comm]; exact (Nat.div_add_mod p cols).symm
      calc (to_row_major (to_col_major M rows cols) rows cols).getD p 0
          = (to_row_major (to_col_major M rows cols) rows cols).getD
              (p / cols * cols + p % cols) 0 := by rw [← hsplit]
        _ = (to_col_major M rows cols).getD (p % cols * rows + p / cols) 0 :=
            to_row_major_getD _ hi hj
        _ = M.getD (p / cols * cols + p % cols) 0 := to_col_major_getD _ hi hj
        _ = M.getD p 0 := by rw [← hsplit]
    rw [List.getD_eq_getElem _ 0 hpM,
      List.getD_eq_getElem _ 0 (by rw [length_to_row_major]; exact hp)] at key
    exact key

/-- Witness for C2 at a concrete 2×3 matrix. -/
theorem roundtrip_to_col_to_row_witness :
    to_row_major (to_col_major [1, 2, 3, 4, 5, 6] 2 3) 2 3 = [1, 2, 3, 4, 5, 6] :=
  roundtrip_to_col_to_row [1, 2, 3, 4, 5, 6] 2 3 (by decide) (by decide) (by decide)

theorem pipelineMultiply_getD (A_rm B_rm : List ℚ) {m n l i j : ℕ}
    (hi : i < m) (hj : j < l) :
    (pipelineMultiply A_rm B_rm m n l).getD (i * l + j) 0 =
      ∑ k in Finset.range n, A_rm.getD (i * n + k) 0 * B_rm.getD (k * l + j) 0 := by
  rw [pipelineMultiply, to_row_major_getD _ hi hj]
  have hlt : j * m + i < m * l := by
    calc j * m + i < j * m + m := by omega
    _ = (j + 1) * m := by ring
    _ ≤ l * m := Nat.mul_le_mul_right m hj
    _ = m * l := Nat.mul_comm l m
  have hmod : (j * m + i) % m = i := by
    rw [Nat.add_comm, Nat.add_mul_mod_self_right, Nat.mod_eq_of_lt hi]
  have hdiv : (j * m + i) / m = j := by
    rw [Nat.add_comm, Nat.add_mul_div_right i j (by omega : 0 < m),
      Nat.div_eq_of_lt hi, Nat.zero_add]
  rw [dgemm, List.length_replicate, getD_map_range _ _ hlt, hmod, hdiv,
    if_pos ⟨hi, hj⟩]
  simp only [eq_self_iff_true, if_true, getD_replicate_zero, mul_zero, add_zero, one_mul]
  refine Finset.sum_congr rfl fun k hk => ?_
  have hkn : k < n := Finset.mem_range.mp hk
  rw [to_col_major_getD _ hi hkn, to_col_major_getD _ hkn hj]

/-- C1: whenever the header and both matrices are successfully read
(A as m×n, B as n×l), the run writes the row-major result of the
multiply core, every entry of that result equals
`Σ_k A[i][k]*B[k][j]` exactly (rationals model exact real arithmetic,
so the floating-point tolerance is met), and the single external
`dgemm_` call uses no transpose on either operand, `alpha = 1` and
`beta = 0`. -/
theorem multiply_pipeline_correct (toks : List Tok) (mz nz lz : ℤ) (rest₁ : List Tok)
    (hd : readDims toks = some (mz, nz, lz, rest₁))
    (hm : 0 < mz) (hn : 0 < nz) (hl : 0 < lz)
    (A_rm : List ℚ) (rest₂ : List Tok)
    (hA : read_matrix_row_major rest₁ mz.toNat nz.toNat = .ok A_rm rest₂)
    (B_rm : List ℚ) (rest₃ : List Tok)
    (hB : read_matrix_row_major rest₂ nz.toNat lz.toNat = .ok B_rm rest₃) :
    (run toks).result =
      .ok (pipelineMultiply A_rm B_rm mz.toNat nz.toNat lz.toNat, mz.toNat, lz.toNat)
    ∧ (∀ i j, i < mz.toNat → j < lz.toNat →
        (pipelineMultiply A_rm B_rm mz.toNat nz.toNat lz.toNat).getD (i * lz.toNat + j) 0 =
          ∑ k in Finset.range nz.toNat,
            A_rm.getD (i * nz.toNat + k) 0 * B_rm.getD (k * lz.toNat + j) 0)
    ∧ ∀ call ∈ (run toks).calls,
        call.transa = 'N' ∧ call.transb = 'N' ∧ call.alpha = 1 ∧ call.beta = 0 := by
  have hcond : ¬(mz ≤ 0 ∨ nz ≤ 0 ∨ lz ≤ 0) := by omega
  have hrun : run toks =
      ⟨.ok (pipelineMultiply A_rm B_rm mz.toNat nz.toNat lz.toNat, mz.toNat, lz.toNat),
       [⟨'N', 'N', mz.toNat, lz.toNat, nz.toNat, 1, to_col_major A_rm mz.toNat nz.toNat,
         mz.toNat, to_col_major B_rm nz.toNat lz.toNat, nz.toNat, 0,
         List.replicate (mz.toNat * lz.toNat) 0, mz.toNat, mz.toNat, nz.toNat, nz.toNat,
         lz.toNat⟩],
       mz.toNat * nz.toNat + nz.toNat * lz.toNat⟩ := by
    rw [run, hd]
    simp only [if_neg hcond, hA, hB]
  refine ⟨by rw [hrun], fun i j hi hj => pipelineMultiply_getD A_rm B_rm hi hj, ?_⟩
  intro call hcall
  rw [hrun] at hcall
  simp only [List.mem_singleton] at hcall
  subst hcall
  exact ⟨rfl, rfl, rfl, rfl⟩

/-- Witness for C1: the spec's 2×3 by 3×2 scenario,
A = [[1,2,3],[1,1,1]], B = [[2,3],[3,4],[5,6]], C = [[23,29],[10,13]]. -/
theorem multiply_pipeline_correct_witness :
    (run [Tok.int 2, Tok.int 3, Tok.int 2,
          Tok.real 1, Tok.real 2, Tok.real 3, Tok.real 1, Tok.real 1, Tok.real 1,
          Tok.real 2, Tok.real 3, Tok.real 3, Tok.real 4, Tok.real 5,
          Tok.real 6]).result = .ok ([23, 29, 10, 13], 2, 2) := by
  have h := multiply_pipeline_correct
    [Tok.int 2, Tok.int 3, Tok.int 2,
     Tok.real 1, Tok.real 2, Tok.real 3, Tok.real 1, Tok.real 1, Tok.real 1,
     Tok.real 2, Tok.real 3, Tok.real 3, Tok.real 4, Tok.real 5, Tok.real 6]
    2 3 2
    [Tok.real 1, Tok.real 2, Tok.real 3, Tok.real 1, Tok.real 1, Tok.real 1,
     Tok.real 2, Tok.real 3, Tok.real 3, Tok.real 4, Tok.real 5, Tok.real 6]
    (by decide) (by decide) (by decide) (by decide)
    [1, 2, 3, 1, 1, 1]
    [Tok.real 2, Tok.real 3, Tok.real 3, Tok.real 4, Tok.real 5, Tok.real 6]
    (by decide)
    [2, 3, 3, 4, 5, 6] [] (by decide)
  rw [h.1]
  have hC : pipelineMultiply [1, 2, 3, 1, 1, 1] [2, 3, 3, 4, 5, 6]
      (2 : ℤ).toNat (3 : ℤ).toNat (2 : ℤ).toNat = [23, 29, 10, 13] := by
    simp [pipelineMultiply, dgemm, to_col_major, to_row_major, List.range_succ,
      Finset.sum_range_succ]
    norm_num
  rw [hC]
  rfl

theorem readVals_encode (cols : ℕ) (vals : List ℚ) (rest : List Tok) :
    ∀ e, readVals cols e vals.length (encodeMatrix vals ++ rest) = .ok vals rest := by
  induction vals with
  | nil => intro e; rfl
  | cons v vs ih =>
    intro e
    simp only [encodeMatrix, List.map_cons, List.cons_append, List.length_cons, readVals,
      readReal]
    rw [show (encodeMatrix vs : List Tok) = vs.map Tok.real from rfl] at ih
    rw [ih (e + 1)]

theorem read_matrix_encode (rows cols : ℕ) (vals : List ℚ) (rest : List Tok)
    (h : vals.length = rows * cols) :
    read_matrix_row_major (encodeMatrix vals ++ rest) rows cols = .ok vals rest := by
  rw [read_matrix_row_major, ← h, readVals_encode]

theorem length_idMatrix (n : ℕ) : (idMatrix n).length = n * n := by
  simp [idMatrix]

theorem idMatrix_getD {n k j : ℕ} (hk : k < n) (hj : j < n) :
    (idMatrix n).getD (k * n + j) 0 = if k = j then 1 else 0 := by
  have hlt : k * n + j < n * n := by
    calc k * n + j < k * n + n := by omega
    _ = (k + 1) * n := by ring
    _ ≤ n * n := Nat.mul_le_mul_right n hk
  have hmod : (k * n + j) % n = j := by
    rw [Nat.add_comm, Nat.add_mul_mod_self_right, Nat.mod_eq_of_lt hj]
  have hdiv : (k * n + j) / n = k := by
    rw [Nat.add_comm, Nat.add_mul_div_right j k (by omega : 0 < n),
      Nat.div_eq_of_lt hj, Nat.zero_add]
  rw [idMatrix, getD_map_range _ _ hlt, hmod, hdiv]

theorem pipelineMultiply_id (A_rm : List ℚ) (m n : ℕ) (hlen : A_rm.length = m * n) :
    pipelineMultiply A_rm (idMatrix n) m n n = A_rm := by
  apply List.ext_getElem
  · rw [pipelineMultiply, length_to_row_major, hlen]
  · intro p hp hpA
    have hp' : p < m * n := by
      rw [pipelineMultiply, length_to_row_major] at hp; exact hp
    have hn0 : 0 < n := by
      rcases Nat.eq_zero_or_pos n with h0 | h0
      · subst h0; simp at hp'
      · exact h0
    have hi : p / n < m := Nat.div_lt_of_lt_mul (by rw [Nat.mul_comm] at hp'; exact hp')
    have hj : p % n < n := Nat.mod_lt p hn0
    have hsplit : p = p / n * n + p % n := by
      rw [Nat.mul_comm]; exact (Nat.div_add_mod p n).symm
    have key : (pipelineMultiply A_rm (idMatrix n) m n n).getD p 0 = A_rm.getD p 0 := by
      conv_lhs => rw [hsplit]
      rw [pipelineMultiply_getD A_rm (idMatrix n) hi hj]
      have hterm : ∀ k ∈ Finset.range n,
          A_rm.getD (p / n * n + k) 0 * (idMatrix n).getD (k * n + p % n) 0 =
            if k = p % n then A_rm.getD (p / n * n + k) 0 else 0 := by
        intro k hk
        rw [idMatrix_getD (Finset.mem_range.mp hk) hj]
        rw [mul_ite, mul_one, mul_zero]
      rw [Finset.sum_congr rfl hterm, Finset.sum_ite_eq' (Finset.range n) (p % n) _,
        if_pos (Finset.mem_range.mpr hj), ← hsplit]
    rw [List.getD_eq_getElem _ 0 hpA, List.getD_eq_getElem _ 0 hp] at key
    exact key

/-- C9: running the multiply pipeline on an input stream declaring
`m n n`, with an m×n matrix A as left operand and the n×n identity
matrix as right operand, writes exactly A (exact equality in the
rational model, hence within any floating-point tolerance). -/
theorem multiply_identity (m n : ℕ) (A_rm : List ℚ) (hm : 0 < m) (hn : 0 < n)
    (hlen : A_rm.length = m * n) :
    (run (Tok.int (m : ℤ) :: Tok.int (n : ℤ) :: Tok.int (n : ℤ) ::
        (encodeMatrix A_rm ++ encodeMatrix (idMatrix n)))).result = .ok (A_rm, m, n) := by
  have hd : readDims (Tok.int (m : ℤ) :: Tok.int (n : ℤ) :: Tok.int (n : ℤ) ::
      (encodeMatrix A_rm ++ encodeMatrix (idMatrix n))) =
      some ((m : ℤ), (n : ℤ), (n : ℤ), encodeMatrix A_rm ++ encodeMatrix (idMatrix n)) := rfl
  have hcond : ¬((m : ℤ) ≤ 0 ∨ (n : ℤ) ≤ 0 ∨ (n : ℤ) ≤ 0) := by omega
  have hA : read_matrix_row_major (encodeMatrix A_rm ++ encodeMatrix (idMatrix n)) m n =
      .ok A_rm (encodeMatrix (idMatrix n)) :=
    read_matrix_encode m n A_rm (encodeMatrix (idMatrix n)) hlen
  have hB : read_matrix_row_major (encodeMatrix (idMatrix n)) n n = .ok (idMatrix n) [] := by
    have h := read_matrix_encode n n (idMatrix n) [] (length_idMatrix n)
    rwa [List.append_nil] at h
  have hrun : (run (Tok.int (m : ℤ) :: Tok.int (n : ℤ) :: Tok.int (n : ℤ) ::
      (encodeMatrix A_rm ++ encodeMatrix (idMatrix n)))).result =
      .ok (pipelineMultiply A_rm (idMatrix n) m n n, m, n) := by
    rw [run, hd]
    simp only [if_neg hcond, Int.toNat_natCast, hA, hB]
  rw [hrun, pipelineMultiply_id A_rm m n hlen]

/-- Witness for C9: a concrete 2×2 matrix times the 2×2 identity. -/
theorem multiply_identity_witness :
    (run (Tok.int ((2 : ℕ) : ℤ) :: Tok.int ((2 : ℕ) : ℤ) :: Tok.int ((2 : ℕ) : ℤ) ::
        (encodeMatrix [5, 7, 11, 13] ++ encodeMatrix (idMatrix 2)))).result =
      .ok ([5, 7, 11, 13], 2, 2) :=
  multiply_identity 2 2 [5, 7, 11, 13] (by decide) (by decide) (by decide)

theorem run_calls_shape (toks : List Tok) (call : DgemmCall)
    (h : call ∈ (run toks).calls) :
    ∃ mz nz lz rest₁ A_rm rest₂ B_rm rest₃,
      readDims toks = some (mz, nz, lz, rest₁) ∧
      ¬(mz ≤ 0 ∨ nz ≤ 0 ∨ lz ≤ 0) ∧
      read_matrix_row_major rest₁ mz.toNat nz.toNat = ReadOut.ok A_rm rest₂ ∧
      read_matrix_row_major rest₂ nz.toNat lz.toNat = ReadOut.ok B_rm rest₃ ∧
      call = ⟨'N', 'N', mz.toNat, lz.toNat, nz.toNat, 1,
        to_col_major A_rm mz.toNat nz.toNat, mz.toNat,
        to_col_major B_rm nz.toNat lz.toNat, nz.toNat, 0,
        List.replicate (mz.toNat * lz.toNat) 0, mz.toNat,
        mz.toNat, nz.toNat, nz.toNat, lz.toNat⟩ := by
  cases hds : readDims toks with
  | none =>
    have hrun : run toks = ⟨.error .invalidDimension, [], 0⟩ := by rw [run, hds]
    rw [hrun] at h
    exact absurd h (List.not_mem_nil call)
  | some v =>
    obtain ⟨mz, nz, lz, rest₁⟩ := v
    by_cases hcond : mz ≤ 0 ∨ nz ≤ 0 ∨ lz ≤ 0
    · have hrun : run toks = ⟨.error .invalidDimension, [], 0⟩ := by
        rw [run, hds]; simp only [if_pos hcond]
      rw [hrun] at h
      exact absurd h (List.not_mem_nil call)
    · cases hA : read_matrix_row_major rest₁ mz.toNat nz.toNat with
      | fail i j c =>
        have hrun : run toks = ⟨.error (.malformedInput "A" i j), [], c⟩ := by
          rw [run, hds]; simp only [if_neg hcond, hA]
        rw [hrun] at h
        exact absurd h (List.not_mem_nil call)
      | ok A_rm rest₂ =>
        cases hB : read_matrix_row_major rest₂ nz.toNat lz.toNat with
        | fail i j c =>
          have hrun : run toks =
              ⟨.error (.malformedInput "B" i j), [], mz.toNat * nz.toNat + c⟩ := by
            rw [run, hds]; simp only [if_neg hcond, hA, hB]
          rw [hrun] at h
          exact absurd h (List.not_mem_nil call)
        | ok B_rm rest₃ =>
          have hrun : run toks =
              ⟨.ok (pipelineMultiply A_rm B_rm mz.toNat nz.toNat lz.toNat, mz.toNat,
                lz.toNat),
               [⟨'N', 'N', mz.toNat, lz.toNat, nz.toNat, 1,
                 to_col_major A_rm mz.toNat nz.toNat, mz.toNat,
                 to_col_major B_rm nz.toNat lz.toNat, nz.toNat, 0,
                 List.replicate (mz.toNat * lz.toNat) 0, mz.toNat,
                 mz.toNat, nz.toNat, nz.toNat, lz.toNat⟩],
               mz.toNat * nz.toNat + nz.toNat * lz.toNat⟩ := by
            rw [run, hds]; simp only [if_neg hcond, hA, hB]
          rw [hrun] at h
          rw [List.mem_singleton] at h
          exact ⟨mz, nz, lz, rest₁, A_rm, rest₂, B_rm, rest₃, rfl, hcond, hA, hB, h⟩

/-- C3: the multiply pipeline never hands the external dense-multiply
routine operands whose shared dimension mismatches: every recorded
`dgemm_` call has A's column count equal to B's row count (both are
the single header integer n), so an input with mismatched operands
cannot reach the external call — the only dimension failure the
pipeline can raise is `invalidDimension`, before any matrix is read. -/
theorem no_external_call_on_mismatch (toks : List Tok) (call : DgemmCall)
    (h : call ∈ (run toks).calls) : call.Acols = call.Brows := by
  obtain ⟨mz, nz, lz, rest₁, A_rm, rest₂, B_rm, rest₃, _, _, _, _, hcall⟩ :=
    run_calls_shape toks call h
  subst hcall
  rfl

/-- Witness for C3 on the concrete input `1 1 1 / A=[2] / B=[3]`. -/
theorem no_external_call_on_mismatch_witness :
    exampleCallA ∈ (run [Tok.int 1, Tok.int 1, Tok.int 1, Tok.real 2, Tok.real 3]).calls ∧
    exampleCallA.Acols = exampleCallA.Brows := by
  have hmem : exampleCallA ∈
      (run [Tok.int 1, Tok.int 1, Tok.int 1, Tok.real 2, Tok.real 3]).calls := by
    rw [run,
      show readDims [Tok.int 1, Tok.int 1, Tok.int 1, Tok.real 2, Tok.real 3] =
        some (1, 1, 1, [Tok.real 2, Tok.real 3]) from rfl]
    simp only [if_neg (by decide : ¬((1 : ℤ) ≤ 0 ∨ (1 : ℤ) ≤ 0 ∨ (1 : ℤ) ≤ 0)),
      show read_matrix_row_major [Tok.real 2, Tok.real 3] (1 : ℤ).toNat (1 : ℤ).toNat =
        ReadOut.ok [2] [Tok.real 3] from by decide,
      show read_matrix_row_major [Tok.real 3] (1 : ℤ).toNat (1 : ℤ).toNat =
        ReadOut.ok [3] [] from by decide]
    exact List.mem_singleton.mpr rfl
  exact ⟨hmem, no_external_call_on_mismatch _ _ hmem⟩

/-- C10: the shared-dimension invariant holds by construction on every
external call: `lda = M`, `ldb = K`, `ldc = M`, the operand matrices
were read as `M×K` and `K×N` with the same `K` (the header's n), and
all three buffers have exactly the sizes those dimensions dictate. -/
theorem dgemm_call_dimensions (toks : List Tok) (call : DgemmCall)
    (h : call ∈ (run toks).calls) :
    call.lda = call.M ∧ call.ldb = call.K ∧ call.ldc = call.M ∧
    call.M = call.Arows ∧ call.K = call.Acols ∧ call.K = call.Brows ∧
    call.N = call.Bcols ∧
    call.Abuf.length = call.Arows * call.Acols ∧
    call.Bbuf.length = call.Brows * call.Bcols ∧
    call.Cbuf.length = call.M * call.N := by
  obtain ⟨mz, nz, lz, rest₁, A_rm, rest₂, B_rm, rest₃, _, _, _, _, hcall⟩ :=
    run_calls_shape toks call h
  subst hcall
  refine ⟨rfl, rfl, rfl, rfl, rfl, rfl, rfl, ?_, ?_, ?_⟩
  · exact length_to_col_major A_rm _ _
  · exact length_to_col_major B_rm _ _
  · exact List.length_replicate _ _

/-- Witness for C10 on the concrete input `2 1 1 / A=[5,7] / B=[4]`. -/
theorem dgemm_call_dimensions_witness :
    exampleCallB ∈
      (run [Tok.int 2, Tok.int 1, Tok.int 1, Tok.real 5, Tok.real 7, Tok.real 4]).calls ∧
    exampleCallB.lda = exampleCallB.M ∧
    exampleCallB.Abuf.length = exampleCallB.Arows * exampleCallB.Acols := by
  have hmem : exampleCallB ∈
      (run [Tok.int 2, Tok.int 1, Tok.int 1, Tok.real 5, Tok.real 7, Tok.real 4]).calls := by
    rw [run,
      show readDims [Tok.int 2, Tok.int 1, Tok.int 1, Tok.real 5, Tok.real 7, Tok.real 4] =
        some (2, 1, 1, [Tok.real 5, Tok.real 7, Tok.real 4]) from rfl]
    simp only [if_neg (by decide : ¬((2 : ℤ) ≤ 0 ∨ (1 : ℤ) ≤ 0 ∨ (1 : ℤ) ≤ 0)),
      show read_matrix_row_major [Tok.real 5, Tok.real 7, Tok.real 4]
          (2 : ℤ).toNat (1 : ℤ).toNat = ReadOut.ok [5, 7] [Tok.real 4] from by decide,
      show read_matrix_row_major [Tok.real 4] (1 : ℤ).toNat (1 : ℤ).toNat =
        ReadOut.ok [4] [] from by decide]
    exact List.mem_singleton.mpr rfl
  have h := dgemm_call_dimensions _ _ hmem
  exact ⟨hmem, h.1, h.2.2.2.2.2.2.2.1⟩

/-- C4: if the header parses with positive dimensions but a matrix
entry token is missing or unparsable, the run fails with a
`malformedInput` error naming the matrix ("A" or "B") and the failing
(row, column) position, performs no external `dgemm_` call, and
produces no output (the output file is created only later in `main`). -/
theorem malformed_input_aborts (toks : List Tok) (mz nz lz : ℤ) (rest₁ : List Tok)
    (hd : readDims toks = some (mz, nz, lz, rest₁))
    (hm : 0 < mz) (hn : 0 < nz) (hl : 0 < lz) :
    (∀ i j c, read_matrix_row_major rest₁ mz.toNat nz.toNat = ReadOut.fail i j c →
      (run toks).result = .error (.malformedInput "A" i j) ∧ (run toks).calls = [] ∧
      ∀ out, (run toks).result ≠ .ok out) ∧
    (∀ A_rm rest₂ i j c, read_matrix_row_major rest₁ mz.toNat nz.toNat = ReadOut.ok A_rm rest₂ →
      read_matrix_row_major rest₂ nz.toNat lz.toNat = ReadOut.fail i j c →
      (run toks).result = .error (.malformedInput "B" i j) ∧ (run toks).calls = [] ∧
      ∀ out, (run toks).result ≠ .ok out) := by
  have hcond : ¬(mz ≤ 0 ∨ nz ≤ 0 ∨ lz ≤ 0) := by omega
  constructor
  · intro i j c hfail
    have hrun : run toks = ⟨.error (.malformedInput "A" i j), [], c⟩ := by
      rw [run, hd]; simp only [if_neg hcond, hfail]
    refine ⟨by rw [hrun], by rw [hrun], ?_⟩
    intro out hout
    rw [hrun] at hout
    simp at hout
  · intro A_rm rest₂ i j c hA hfail
    have hrun : run toks =
        ⟨.error (.malformedInput "B" i j), [], mz.toNat * nz.toNat + c⟩ := by
      rw [run, hd]; simp only [if_neg hcond, hA, hfail]
    refine ⟨by rw [hrun], by rw [hrun], ?_⟩
    intro out hout
    rw [hrun] at hout
    simp at hout

/-- Witness for C4: the spec's malformed-input scenario — header
`2 3 2` but only 5 of the 6 entries of A present; the read fails at
row 1, column 2. -/
theorem malformed_input_aborts_witness :
    (run [Tok.int 2, Tok.int 3, Tok.int 2,
          Tok.real 1, Tok.real 2, Tok.real 3, Tok.real 1, Tok.real 1]).result =
      .error (.malformedInput "A" 1 2) ∧
    (run [Tok.int 2, Tok.int 3, Tok.int 2,
          Tok.real 1, Tok.real 2, Tok.real 3, Tok.real 1, Tok.real 1]).calls = [] ∧
    ∀ out, (run [Tok.int 2, Tok.int 3, Tok.int 2,
          Tok.real 1, Tok.real 2, Tok.real 3, Tok.real 1, Tok.real 1]).result ≠ .ok out :=
  (malformed_input_aborts
    [Tok.int 2, Tok.int 3, Tok.int 2,
     Tok.real 1, Tok.real 2, Tok.real 3, Tok.real 1, Tok.real 1]
    2 3 2
    [Tok.real 1, Tok.real 2, Tok.real 3, Tok.real 1, Tok.real 1]
    (by decide) (by decide) (by decide) (by decide)).1 1 2 5 (by decide)

/-- C5: if a header integer is missing or unparsable, or any of the
three parsed dimensions is ≤ 0, the run fails with `invalidDimension`
with zero matrix entries read and no external call performed. -/
theorem invalid_dimension_aborts (toks : List Tok) :
    (readDims toks = none →
      run toks = ⟨.error .invalidDimension, [], 0⟩) ∧
    (∀ mz nz lz rest₁, readDims toks = some (mz, nz, lz, rest₁) →
      (mz ≤ 0 ∨ nz ≤ 0 ∨ lz ≤ 0) →
      run toks = ⟨.error .invalidDimension, [], 0⟩) := by
  constructor
  · intro h
    rw [run, h]
  · intro mz nz lz rest₁ h hcond
    rw [run, h]
    simp only [if_pos hcond]

/-- Witness for C5: the spec's non-positive-dimension scenario
`0 3 2 ...`. -/
theorem invalid_dimension_aborts_witness :
    run [Tok.int 0, Tok.int 3, Tok.int 2, Tok.real 1] =
      ⟨.error .invalidDimension, [], 0⟩ :=
  (invalid_dimension_aborts [Tok.int 0, Tok.int 3, Tok.int 2, Tok.real 1]).2
    0 3 2 [Tok.real 1] (by decide) (by decide)

/-- C6 counterexample: at status −1 the SVD program (part_000 lines
37–40) does not surface an invalid-argument failure reporting the
1-based parameter position 1; it takes the same uniform
print-raw-info-and-exit-1 path it takes for the positive status 1, so
the claim's "every program that inspects the status code"
quantification fails on the SVD program. -/
theorem svd_status_uniform_counterexample :
    dgesvdStatus (-1) = .uniformFailure (-1) ∧
    dgesvdStatus (-1) ≠ .invalidArgument 1 ∧
    dgesvdStatus 1 = .uniformFailure 1 := by
  refine ⟨rfl, ?_, rfl⟩
  intro h
  exact StatusOutcome.noConfusion h

/-- C6 (amended): the two fitting programs treat status 0 as success,
surface a negative status as an invalid-argument failure reporting the
1-based parameter position −info, and surface a positive status as a
numerical failure distinct from the invalid-argument case; the SVD
program treats 0 as success but reports any nonzero status through one
uniform failure path carrying the raw info value.  All failure paths
are terminal (they throw or return immediately); none retries. -/
theorem status_code_handling (info : ℤ) :
    (info = 0 → dgesvStatus info = .success ∧ dgelsStatus info = .success ∧
      dgesvdStatus info = .success) ∧
    (info < 0 → dgesvStatus info = .invalidArgument (-info) ∧
      dgelsStatus info = .invalidArgument (-info)) ∧
    (info > 0 → dgesvStatus info = .numericFailure info ∧
      dgelsStatus info = .numericFailure info) ∧
    (∀ a b : ℤ, StatusOutcome.invalidArgument a ≠ StatusOutcome.numericFailure b) ∧
    (info ≠ 0 → dgesvdStatus info = .uniformFailure info) := by
  refine ⟨?_, ?_, ?_, ?_, ?_⟩
  · intro h; subst h; exact ⟨rfl, rfl, rfl⟩
  · intro h
    constructor <;> simp [dgesvStatus, dgelsStatus, h]
  · intro h
    have h' : ¬info < 0 := by omega
    constructor <;> simp [dgesvStatus, dgelsStatus, h, h']
  · intro a b h
    exact StatusOutcome.noConfusion h
  · intro h
    simp [dgesvdStatus, h]

/-- Witness for C6 at the concrete status −2. -/
theorem status_code_handling_witness :
    (-2 : ℤ) < 0 ∧ dgesvStatus (-2) = .invalidArgument 2 ∧
      dgelsStatus (-2) = .invalidArgument 2 := by
  have h := (status_code_handling (-2)).2.1 (by decide)
  exact ⟨by decide, h.1, h.2⟩

theorem lineConcat_append_singleton (xs : List String) (x : String) :
    lineConcat (xs ++ [x]) = lineConcat xs ++ x := by
  induction xs with
  | nil => simp [lineConcat, String.append_empty, String.empty_append]
  | cons a xs ih => simp [lineConcat, ih, String.append_assoc]

theorem spaceJoin_append_singleton (xs : List String) (x : String) :
    spaceJoin (xs ++ [x]) = lineConcat (xs.map fun s => s ++ " ") ++ x := by
  induction xs with
  | nil => simp [spaceJoin, lineConcat, String.empty_append]
  | cons a xs ih =>
    cases xs with
    | nil => simp [spaceJoin, lineConcat, String.append_assoc, String.append_empty]
    | cons b xs' =>
      simp only [List.cons_append]
      rw [show spaceJoin (a :: b :: (xs' ++ [x])) =
        a ++ " " ++ spaceJoin (b :: (xs' ++ [x])) from rfl]
      rw [show (b :: (xs' ++ [x]) : List String) = (b :: xs') ++ [x] from rfl, ih]
      simp [lineConcat, String.append_assoc]

theorem foldl_append_range (h : ℕ → String) (r : ℕ) (s : String) :
    (List.range r).foldl (fun acc i => acc ++ h i) s =
      s ++ lineConcat ((List.range r).map h) := by
  induction r generalizing s with
  | zero => simp [lineConcat, String.append_empty]
  | succ r ih =>
    rw [List.range_succ, List.foldl_append, List.map_append,
      show List.map h [r] = [h r] from rfl, lineConcat_append_singleton, ih]
    simp [List.foldl, String.append_assoc]

theorem foldl_row (g : ℕ → String) (cols : ℕ) (acc : String) :
    (List.range cols).foldl (fun a j => a ++ g j ++ if j + 1 < cols then " " else "") acc =
      acc ++ spaceJoin ((List.range cols).map g) := by
  cases cols with
  | zero => simp [spaceJoin, String.append_empty]
  | succ c =>
    rw [List.range_succ, List.foldl_append]
    have hcong : (List.range c).foldl
        (fun a j => a ++ g j ++ if j + 1 < c + 1 then " " else "") acc =
        (List.range c).foldl (fun a j => a ++ (g j ++ " ")) acc := by
      apply List.foldl_ext
      intro a j hj
      rw [if_pos (Nat.succ_lt_succ (List.mem_range.mp hj)), String.append_assoc]
    rw [hcong, foldl_append_range (fun j => g j ++ " ") c acc,
      List.map_append, show List.map g [c] = [g c] from rfl, spaceJoin_append_singleton]
    simp [List.foldl, String.append_assoc, String.append_empty, List.map_map,
      Function.comp_def, if_neg (lt_irrefl (c + 1))]

/-- C7: the file writer emits a first line `rows cols` (single space
between the two counts), followed by exactly `rows` lines, each the
single-space-separated rendering of the `cols` row-major values of that
row, every line newline-terminated; every value is rendered at the
precision constant 17 set by the writer (part_001 line 72,
`std::setprecision(17)`, which is ≥ 17 significant digits, enough to
round-trip a double — the rendering function itself stays abstract). -/
theorem write_matrix_format (fmt : ℕ → ℚ → String) (rm : List ℚ) (rows cols : ℕ) :
    write_matrix_row_major fmt rm rows cols =
      lineConcat ((((toString rows ++ " " ++ toString cols) ::
        (List.range rows).map fun i =>
          spaceJoin ((List.range cols).map fun j => fmt 17 (rm.getD (i * cols + j) 0))).map
        fun line => line ++ "\n")) := by
  rw [write_matrix_row_major]
  have houter : (List.range rows).foldl (fun acc i =>
      ((List.range cols).foldl (fun acc2 j =>
        acc2 ++ fmt 17 (rm.getD (i * cols + j) 0) ++ if j + 1 < cols then " " else "") acc)
      ++ "\n") "" =
      (List.range rows).foldl (fun acc i =>
        acc ++ (spaceJoin ((List.range cols).map fun j => fmt 17 (rm.getD (i * cols + j) 0))
          ++ "\n")) "" := by
    apply List.foldl_ext
    intro acc i _
    rw [foldl_row, String.append_assoc]
  rw [houter, foldl_append_range]
  simp [lineConcat, List.map_map, Function.comp_def, String.append_assoc, String.empty_append]

theorem ite_gt_max (a x : ℚ) [h : Decidable (x > a)] :
    (if x > a then x else a) = max a x := by
  rw [max_def]
  split_ifs with h1 h2 h2
  · rfl
  · linarith
  · linarith
  · rfl

theorem foldl_gt_max4 (d0 d1 d2 d3 : ℚ) (h0 : 0 ≤ d0) :
    [d0, d1, d2, d3].foldl (fun acc x => if x > acc then x else acc) 0 =
      max (max (max d0 d1) d2) d3 := by
  simp only [List.foldl_cons, List.foldl_nil, ite_gt_max]
  rw [max_eq_right h0]

/-- C8: the SVD program's reported reconstruction error equals the
maximum over all four entries of the absolute difference between the
original matrix A and the recomposed product `U·Σ·Vᵀ` (Σ = diag(S));
each fitting program's reported SSE equals `Σ_i (ŷ_i − y_i)²` over its
sample points (ŷ = a·x+b for the linear model, ŷ = a·x²+b·x+c for the
quadratic model), and its reported MSE equals SSE divided by the number
of samples (4 and 6 respectively). -/
theorem derived_diagnostics :
    (∀ U S VT : List ℚ,
      svd_max_err U S VT =
        max (max (max |recomposedEntry U S VT 0 0 - svdA.getD 0 0|
                      |recomposedEntry U S VT 0 1 - svdA.getD 1 0|)
                 |recomposedEntry U S VT 1 0 - svdA.getD 2 0|)
            |recomposedEntry U S VT 1 1 - svdA.getD 3 0|) ∧
    (∀ a b : ℚ, lineal_sse a b =
      ∑ i in Finset.range 4, (a * lineal_x.getD i 0 + b - lineal_y.getD i 0) ^ 2) ∧
    (∀ a b : ℚ, lineal_mse a b = lineal_sse a b / 4) ∧
    (∀ a b c : ℚ, cuad_sse a b c =
      ∑ i in Finset.range 6,
        (a * (cuad_x.getD i 0) ^ 2 + b * cuad_x.getD i 0 + c - cuad_y.getD i 0) ^ 2) ∧
    (∀ a b c : ℚ, cuad_mse a b c = cuad_sse a b c / 6) := by
  refine ⟨?_, ?_, ?_, ?_, ?_⟩
  · intro U S VT
    have h00 : (svdARec U S VT).getD 0 0 = recomposedEntry U S VT 0 0 := by
      simp [svdARec, mat2mul, svdSigma, recomposedEntry, List.range_succ,
        Finset.sum_range_succ]
    have h01 : (svdARec U S VT).getD 1 0 = recomposedEntry U S VT 0 1 := by
      simp [svdARec, mat2mul, svdSigma, recomposedEntry, List.range_succ,
        Finset.sum_range_succ]
    have h10 : (svdARec U S VT).getD 2 0 = recomposedEntry U S VT 1 0 := by
      simp [svdARec, mat2mul, svdSigma, recomposedEntry, List.range_succ,
        Finset.sum_range_succ]
    have h11 : (svdARec U S VT).getD 3 0 = recomposedEntry U S VT 1 1 := by
      simp [svdARec, mat2mul, svdSigma, recomposedEntry, List.range_succ,
        Finset.sum_range_succ]
    have key : svd_max_err U S VT =
        [|(svdARec U S VT).getD 0 0 - svdA.getD 0 0|,
         |(svdARec U S VT).getD 1 0 - svdA.getD 1 0|,
         |(svdARec U S VT).getD 2 0 - svdA.getD 2 0|,
         |(svdARec U S VT).getD 3 0 - svdA.getD 3 0|].foldl
          (fun acc x => if x > acc then x else acc) 0 := rfl
    rw [key, foldl_gt_max4 _ _ _ _ (abs_nonneg _), h00, h01, h10, h11]
  · intro a b
    have key : lineal_sse a b =
        0 + (a * 1 + b - 2) * (a * 1 + b - 2) + (a * 2 + b - 2) * (a * 2 + b - 2) +
          (a * 3 + b - 4) * (a * 3 + b - 4) + (a * 4 + b - 5) * (a * 4 + b - 5) := rfl
    have key2 : (∑ i in Finset.range 4, (a * lineal_x.getD i 0 + b - lineal_y.getD i 0) ^ 2) =
        (a * 1 + b - 2) ^ 2 + ((a * 2 + b - 2) ^ 2 + ((a * 3 + b - 4) ^ 2 +
          ((a * 4 + b - 5) ^ 2 + 0))) := rfl
    rw [key, key2]
    ring
  · intro a b
    simp [lineal_mse, lineal_x]
  · intro a b c
    have key : cuad_sse a b c =
        0 + (a * 0 * 0 + b * 0 + c - 6/5) * (a * 0 * 0 + b * 0 + c - 6/5) +
          (a * 1 * 1 + b * 1 + c - 2) * (a * 1 * 1 + b * 1 + c - 2) +
          (a * 2 * 2 + b * 2 + c - 29/10) * (a * 2 * 2 + b * 2 + c - 29/10) +
          (a * 3 * 3 + b * 3 + c - 41/10) * (a * 3 * 3 + b * 3 + c - 41/10) +
          (a * 4 * 4 + b * 4 + c - 29/5) * (a * 4 * 4 + b * 4 + c - 29/5) +
          (a * 5 * 5 + b * 5 + c - 41/5) * (a * 5 * 5 + b * 5 + c - 41/5) := rfl
    have key2 : (∑ i in Finset.range 6,
        (a * (cuad_x.getD i 0) ^ 2 + b * cuad_x.getD i 0 + c - cuad_y.getD i 0) ^ 2) =
        (a * 0 ^ 2 + b * 0 + c - 6/5) ^ 2 + ((a * 1 ^ 2 + b * 1 + c - 2) ^ 2 +
          ((a * 2 ^ 2 + b * 2 + c - 29/10) ^ 2 + ((a * 3 ^ 2 + b * 3 + c - 41/10) ^ 2 +
          ((a * 4 ^ 2 + b * 4 + c - 29/5) ^ 2 + ((a * 5 ^ 2 + b * 5 + c - 41/5) ^ 2 +
            0))))) := rfl
    rw [key, key2]
    ring
  · intro a b c
    simp [cuad_mse, cuad_x]

end MCS
